import Mathlib

/-
Verification development for the `typify` JavaScript-to-TypeScript converter
(src/index.js). The definitions below are a shallow embedding, translated
directly from the source: `inferParameterType`, `handleRequireToImport`, the
`VariableDeclaration` visitor (require rewriting followed by the var-keyword
rewrite), the per-parameter bundle-flag detection from the `Function` visitor,
and the bundle-import assembly (`unshift` sequence) of `convertFile`.

JavaScript runtime failures (ReferenceError on reading an identifier that is
not in scope, TypeError on reading a property of `undefined`) are modelled with
`Except JsErr`, since in the source they propagate to the `try/catch` in
`convertFile`, which reports the error and exits: the conversion aborts.
-/

namespace Typify

/- ## JS string helpers

The source uses `String.prototype.toLowerCase`, `String.prototype.includes`
and `String.prototype.endsWith` on parameter names. These are modelled over
the character list of the Lean string (ASCII identifiers). -/

def charsPrefix : List Char → List Char → Bool
  | [], _ => true
  | _ :: _, [] => false
  | a :: as, b :: bs => a == b && charsPrefix as bs

def charsInfix : List Char → List Char → Bool
  | sub, [] => charsPrefix sub []
  | sub, c :: rest => charsPrefix sub (c :: rest) || charsInfix sub rest

/-- Model of `s.includes(sub)`. -/
def jsIncludes (s sub : String) : Bool := charsInfix sub.data s.data

/-- Model of `s.endsWith(suf)`. -/
def jsEndsWith (s suf : String) : Bool := charsPrefix suf.data.reverse s.data.reverse

/-- ASCII lower-casing of one character, as `toLowerCase` acts on identifiers. -/
def jsLowerChar (c : Char) : Char :=
  if c.toNat ≥ 65 ∧ c.toNat ≤ 90 then Char.ofNat (c.toNat + 32) else c

/-- Model of `s.toLowerCase()` for ASCII identifier strings. -/
def jsToLower (s : String) : String := String.mk (s.data.map jsLowerChar)

/- ## Data model for type annotations (Babel TS annotation nodes) -/

/-- TypeScript type nodes the source builds: TSAnyKeyword, TSStringKeyword,
TSNumberKeyword, TSBooleanKeyword, TSNullKeyword, TSArrayType, TSUnionType and
TSTypeReference (with its optional TSTypeParameterInstantiation list). -/
inductive TSType where
  | anyKw
  | stringKw
  | numberKw
  | booleanKw
  | nullKw
  | arrayOf (elem : TSType)
  | unionOf (types : List TSType)
  | tref (name : String) (typeArgs : List TSType)
deriving Repr

/-- The `Error | null` union built for `err` / `error` callback parameters. -/
def errorOrNull : TSType := TSType.unionOf [TSType.tref "Error" [], TSType.nullKw]

/-- JavaScript runtime errors that the embedded functions can raise. -/
inductive JsErr where
  | referenceError (name : String)
  | typeError (msg : String)
deriving DecidableEq, Repr

/- ## Usage classifier (`inferParameterType`) -/

/-- Kinds of Babel function nodes visited by the `Function` visitor. The
source's special cases test `node.type === 'ArrowFunctionExpression' ||
node.type === 'FunctionDeclaration'`. -/
inductive FunctionKind where
  | arrowFunctionExpression
  | functionDeclaration
  | functionExpression
  | objectMethod
  | classMethod
deriving DecidableEq, Repr

/-- Shape of the parent node of one reference to the parameter, carrying
exactly the fields the classifier inspects:
`binary op otherIsNumLit` is a BinaryExpression parent with its operator and
whether the operand that is not the reference is a NumericLiteral;
`call refIsCallee calleeProp` is a CallExpression parent, recording whether the
reference is the callee and the callee's `.property?.name`;
`ifStmt` / `conditionalExpr` / `memberExpr` record the corresponding parent
node types; `otherParent` is any other parent, matching no rule. -/
inductive RefParent where
  | binary (op : String) (otherIsNumLit : Bool)
  | call (refIsCallee : Bool) (calleeProp : Option String)
  | ifStmt
  | conditionalExpr
  | memberExpr
  | otherParent
deriving DecidableEq, Repr

/-- One iteration of the reference loop in `inferParameterType`: the five
cases, tested in source order against the reference's parent. Returns the
first verdict, or `none` when no case fires for this reference. -/
def classifyRef (name : String) (parent : RefParent) : Option TSType :=
  match parent with
  | RefParent.binary op otherIsNumLit =>
    -- Case 1: string concatenation (any '+' binary parent)
    if op = "+" then some TSType.stringKw
    -- Case 2: numeric operations with a numeric-literal other operand
    else if (op = "+" ∨ op = "-" ∨ op = "*" ∨ op = "/") ∧ otherIsNumLit = true then
      some TSType.numberKw
    else none
  | RefParent.call refIsCallee calleeProp =>
    -- Case 3: the reference is the callee and `callee.property?.name === 'map'`
    if refIsCallee = true ∧ calleeProp = some "map" then
      some (TSType.arrayOf TSType.anyKw)
    else none
  | RefParent.ifStmt => some TSType.booleanKw
  | RefParent.conditionalExpr => some TSType.booleanKw
  | RefParent.memberExpr =>
    -- Case 5: member-expression parent, with req/res special names
    if name = "req" ∨ name = "request" then some (TSType.tref "Request" [])
    else if name = "res" ∨ name = "response" then some (TSType.tref "Response" [])
    else some (TSType.tref "Record" [TSType.stringKw, TSType.anyKw])
  | RefParent.otherParent => none

/-- The `for (const ref of references)` loop: scan reference parents in source
order, returning at the first case that fires. -/
def scanRefs (name : String) : List RefParent → Option TSType
  | [] => none
  | r :: rs =>
    match classifyRef name r with
    | some t => some t
    | none => scanRefs name rs

/-- Name-pattern fallback chain of `inferParameterType` (the checks after the
reference loop), acting on the lower-cased parameter name. The
`response` arm of the source reads `needsAxiosTypes`, a `let` variable
declared inside `convertFile` and not in scope at the top-level
`inferParameterType`; evaluating that identifier throws a ReferenceError,
modelled here as `Except.error`. -/
def catalogVerdict (lower : String) : Except JsErr TSType :=
  if lower = "db" ∨ lower = "database" then Except.ok (TSType.tref "Db" [])
  else if lower = "collection" then Except.ok (TSType.tref "Collection" [])
  else if lower = "model" ∨ jsEndsWith lower "model" = true then
    Except.ok (TSType.tref "Model" [TSType.anyKw])
  else if lower = "schema" then Except.ok (TSType.tref "Schema" [])
  else if lower = "connection" ∨ lower = "conn" then Except.ok (TSType.tref "Connection" [])
  else if lower = "pool" then Except.ok (TSType.tref "Pool" [])
  else if lower = "socket" ∨ jsIncludes lower "socket" = true then
    Except.ok (TSType.tref "Socket" [])
  else if lower = "token" ∨ lower = "jwt" then Except.ok (TSType.tref "JwtPayload" [])
  else if jsIncludes lower "axios" = true ∨ lower = "client" then
    Except.ok (TSType.tref "AxiosInstance" [])
  else if lower = "response" then
    Except.error (JsErr.referenceError "needsAxiosTypes")
  else if jsIncludes lower "fetch" = true ∨ lower = "init" then
    Except.ok (TSType.tref "RequestInit" [])
  else Except.ok TSType.anyKw

/-- Embedding of `inferParameterType(param, functionPath)`: the err/error and
next special cases for arrow/declared functions, then the reference scan, then
the lower-cased name-pattern catalog. -/
def inferParameterType (kind : FunctionKind) (name : String) (refs : List RefParent) :
    Except JsErr TSType :=
  if (kind = FunctionKind.arrowFunctionExpression ∨ kind = FunctionKind.functionDeclaration) ∧
      (name = "err" ∨ name = "error") then
    Except.ok errorOrNull
  else if (kind = FunctionKind.arrowFunctionExpression ∨ kind = FunctionKind.functionDeclaration) ∧
      name = "next" then
    Except.ok (TSType.tref "NextFunction" [])
  else
    match scanRefs name refs with
    | some t => Except.ok t
    | none => catalogVerdict (jsToLower name)

/- ## Import rewriter (`handleRequireToImport`) and mutability rewriter -/

/-- Argument of a call, as far as the rewriter inspects it: a StringLiteral
with its value, or any other argument node. -/
inductive Arg where
  | stringLit (value : String)
  | otherArg
deriving DecidableEq, Repr

/-- Initializer of a declarator: a CallExpression (with `callee.name` when the
callee is a named identifier, `none` otherwise, and its argument list), or any
non-call initializer. -/
inductive InitExpr where
  | call (callee : Option String) (args : List Arg)
  | otherInit
deriving DecidableEq, Repr

/-- Member of an ObjectPattern. An ObjectProperty carries `key.name` and
`value.name` (each `none` when that node has no `name` field); a RestElement
has no `key` field at all, so reading `prop.key.name` on it throws. -/
inductive ObjProp where
  | prop (keyName : Option String) (valueName : Option String)
  | restElement (argName : String)
deriving DecidableEq, Repr

/-- Binding pattern of a declarator: Identifier, ObjectPattern, or any other
pattern (e.g. ArrayPattern), which matches neither rewrite branch. -/
inductive Pat where
  | identifier (name : String)
  | objectPattern (props : List ObjProp)
  | otherPat
deriving DecidableEq, Repr

/-- The `id.name` read used by the mutability rewrite: only an Identifier
pattern has a `name`. -/
def Pat.name : Pat → Option String
  | Pat.identifier n => some n
  | _ => none

structure Declarator where
  id : Pat
  init : Option InitExpr
deriving DecidableEq, Repr

/-- A VariableDeclaration statement: its keyword and declarator list. -/
structure VarDecl where
  kind : String
  declarations : List Declarator
deriving DecidableEq, Repr

/-- Import specifiers the converter emits: `ImportDefaultSpecifier` with its
local name, or `ImportSpecifier` with imported and local names (held as
`Option` because the require-derived ones are read off pattern properties and
can be `undefined` in the source's object literals). -/
inductive ImportSpec where
  | defaultSpec (localName : String)
  | namedSpec (imported : Option String) (localName : Option String)
deriving DecidableEq, Repr

/-- A synthesized ImportDeclaration: specifier list and module source string. -/
structure ImportDecl where
  specifiers : List ImportSpec
  source : String
deriving DecidableEq, Repr

/-- The `imports` Set (module sources already imported) and the `importNodes`
array accumulated during traversal. -/
structure RewriteState where
  imports : List String
  importNodes : List ImportDecl
deriving DecidableEq, Repr

/-- Build one ImportSpecifier from one ObjectPattern member, as the `.map`
callback does: `imported.name = prop.key.name`,
`local.name = prop.value.name || prop.key.name`. On a RestElement `prop.key`
is `undefined`, so `prop.key.name` throws a TypeError. -/
def propToSpecifier : ObjProp → Except JsErr ImportSpec
  | ObjProp.prop keyName valueName =>
    Except.ok (ImportSpec.namedSpec keyName
      (match valueName with
       | some v => some v
       | none => keyName))
  | ObjProp.restElement _ =>
    Except.error (JsErr.typeError "Cannot read properties of undefined (reading name)")

/-- The `.map` over the pattern's properties, with JS exception propagation. -/
def propsToSpecifiers : List ObjProp → Except JsErr (List ImportSpec)
  | [] => Except.ok []
  | p :: ps =>
    match propToSpecifier p with
    | Except.error e => Except.error e
    | Except.ok s =>
      match propsToSpecifiers ps with
      | Except.error e => Except.error e
      | Except.ok rest => Except.ok (s :: rest)

/-- Guard-and-build part of `handleRequireToImport`: examines only
`declarations[0]`, requires a CallExpression initializer whose callee is named
`require` and whose first argument is a StringLiteral, then builds the
ImportDeclaration according to the pattern shape (`none` when some guard fails
or the pattern shape matches neither branch). -/
def mkRequireImport (node : VarDecl) : Except JsErr (Option ImportDecl) :=
  match node.declarations.head? with
  | none => Except.ok none
  | some declaration =>
    match declaration.init with
    | none => Except.ok none
    | some InitExpr.otherInit => Except.ok none
    | some (InitExpr.call callee args) =>
      if callee = some "require" then
        match args.head? with
        | some (Arg.stringLit v) =>
          match declaration.id with
          | Pat.identifier n =>
            Except.ok (some (ImportDecl.mk [ImportSpec.defaultSpec n] v))
          | Pat.objectPattern props =>
            match propsToSpecifiers props with
            | Except.error e => Except.error e
            | Except.ok specs => Except.ok (some (ImportDecl.mk specs v))
          | Pat.otherPat => Except.ok none
        | _ => Except.ok none
      else Except.ok none

/-- Final block of `handleRequireToImport` once an ImportDeclaration exists:
deduplicate on the module source, push the node when new, and remove the
original statement (the `Bool` is "statement removed"; removal is
unconditional here). -/
def finishImport (imp : ImportDecl) (st : RewriteState) : RewriteState × Bool :=
  if imp.source ∈ st.imports then (st, true)
  else (RewriteState.mk (st.imports ++ [imp.source]) (st.importNodes ++ [imp]), true)

/-- Embedding of `handleRequireToImport(path, imports, importNodes)`. -/
def handleRequireToImport (node : VarDecl) (st : RewriteState) :
    Except JsErr (RewriteState × Bool) :=
  match mkRequireImport node with
  | Except.error e => Except.error e
  | Except.ok none => Except.ok (st, false)
  | Except.ok (some imp) => Except.ok (finishImport imp st)

/-- The `var` block of the VariableDeclaration visitor: when the statement's
keyword is `var` and `declarations[0].id.name` exists, look up the binding of
that name and set the keyword to `const` when the binding exists and is
constant (never reassigned), else `let`. The scope lookup
`path.scope.getBinding(name)` is externalized as the `binding` argument:
`none` models no binding, `some c` a binding whose `constant` flag is `c`. -/
def rewriteVarKind (node : VarDecl) (binding : Option Bool) : VarDecl :=
  if node.kind = "var" then
    match node.declarations.head? with
    | some d =>
      match d.id.name with
      | some _ =>
        VarDecl.mk (if (match binding with | some c => c | none => false) then "const" else "let")
          node.declarations
      | none => node
    | none => node
  else node

/-- The full VariableDeclaration visitor: `handleRequireToImport` first; when
that removed the statement (`path.node` is null) nothing further happens,
otherwise the var-keyword rewrite runs on the surviving node. Returns the new
state and the statement as it remains in the tree (`none` = removed). -/
def visitVariableDeclaration (node : VarDecl) (binding : Option Bool) (st : RewriteState) :
    Except JsErr (RewriteState × Option VarDecl) :=
  match handleRequireToImport node st with
  | Except.error e => Except.error e
  | Except.ok (st2, removed) =>
    if removed then Except.ok (st2, none)
    else Except.ok (st2, some (rewriteVarKind node binding))

/-- Process a list of VariableDeclaration statements in source order, each
paired with its binding-lookup result, threading the import state and
collecting the statements that remain in the tree. -/
def processDecls : List (VarDecl × Option Bool) → RewriteState →
    Except JsErr (RewriteState × List VarDecl)
  | [], st => Except.ok (st, [])
  | (d, b) :: rest, st =>
    match visitVariableDeclaration d b st with
    | Except.error e => Except.error e
    | Except.ok (st1, kd) =>
      match processDecls rest st1 with
      | Except.error e => Except.error e
      | Except.ok (stF, kept) =>
        Except.ok (stF, (match kd with | some k => [k] | none => []) ++ kept)

/- ## Bundle flags, bundle imports and the `convertFile` pipeline -/

/-- The eight per-file bundle flags declared at the top of `convertFile`. -/
structure BundleFlags where
  needsExpressTypes : Bool
  needsMongoDBTypes : Bool
  needsMongooseTypes : Bool
  needsSQLTypes : Bool
  needsSocketIOTypes : Bool
  needsJWTTypes : Bool
  needsAxiosTypes : Bool
  needsFetchTypes : Bool
deriving DecidableEq, Repr

def noFlags : BundleFlags := BundleFlags.mk false false false false false false false false

/-- The detection block of the `Function` visitor, run for each identifier
parameter on its lower-cased name, raising bundle flags. -/
def detectBundles (rawName : String) (f : BundleFlags) : BundleFlags :=
  let p := jsToLower rawName
  let f := if p = "req" ∨ p = "request" ∨ p = "res" ∨ p = "response" ∨ p = "next" then
    { f with needsExpressTypes := true } else f
  let f := if p = "db" ∨ p = "database" ∨ p = "collection" ∨ p = "cursor" then
    { f with needsMongoDBTypes := true } else f
  let f := if p = "model" ∨ p = "schema" ∨ p = "document" ∨ jsEndsWith p "model" = true then
    { f with needsMongooseTypes := true } else f
  let f := if p = "connection" ∨ p = "conn" ∨ p = "query" ∨ p = "pool" then
    { f with needsSQLTypes := true } else f
  let f := if p = "socket" ∨ p = "io" ∨ jsIncludes p "socket" = true then
    { f with needsSocketIOTypes := true } else f
  let f := if p = "token" ∨ p = "jwt" ∨ jsIncludes p "token" = true then
    { f with needsJWTTypes := true } else f
  let f := if jsIncludes p "axios" = true ∨ jsIncludes p "http" = true then
    { f with needsAxiosTypes := true } else f
  let f := if jsIncludes p "fetch" = true ∨ p = "response" then
    { f with needsFetchTypes := true } else f
  f

/-- Named specifier importing a binding under its own name. -/
def plainSpec (n : String) : ImportSpec := ImportSpec.namedSpec (some n) (some n)

def expressImport : ImportDecl :=
  ImportDecl.mk [plainSpec "Request", plainSpec "Response", plainSpec "NextFunction"] "express"

def mongoImport : ImportDecl :=
  ImportDecl.mk [plainSpec "Db", plainSpec "Collection", plainSpec "Document"] "mongodb"

def mongooseImport : ImportDecl :=
  ImportDecl.mk [plainSpec "Model", plainSpec "Schema", plainSpec "Document"] "mongoose"

def sqlImport : ImportDecl :=
  ImportDecl.mk [plainSpec "Connection", plainSpec "Pool", plainSpec "Query"] "mysql2/promise"

def socketIOImport : ImportDecl :=
  ImportDecl.mk [plainSpec "Socket", plainSpec "Server"] "socket.io"

def jwtImport : ImportDecl :=
  ImportDecl.mk [plainSpec "JwtPayload"] "jsonwebtoken"

def axiosImport : ImportDecl :=
  ImportDecl.mk [plainSpec "AxiosInstance", plainSpec "AxiosResponse"] "axios"

def fetchImport : ImportDecl :=
  ImportDecl.mk [plainSpec "RequestInit", plainSpec "Response"] "node-fetch"

/-- The post-traversal `unshift` sequence of `convertFile`: express, mongodb,
mongoose, sql, socket.io, jwt, axios, node-fetch are prepended in that order
(each in front of everything already present) onto the list of
require-derived nodes. -/
def assembleImports (flags : BundleFlags) (importNodes : List ImportDecl) : List ImportDecl :=
  let ns := importNodes
  let ns := if flags.needsExpressTypes then expressImport :: ns else ns
  let ns := if flags.needsMongoDBTypes then mongoImport :: ns else ns
  let ns := if flags.needsMongooseTypes then mongooseImport :: ns else ns
  let ns := if flags.needsSQLTypes then sqlImport :: ns else ns
  let ns := if flags.needsSocketIOTypes then socketIOImport :: ns else ns
  let ns := if flags.needsJWTTypes then jwtImport :: ns else ns
  let ns := if flags.needsAxiosTypes then axiosImport :: ns else ns
  let ns := if flags.needsFetchTypes then fetchImport :: ns else ns
  ns

/-- An identifier-shaped function parameter: its name, its type-slot (`none`
when the input carries no annotation yet) and the parent shapes of its
reference sites within the enclosing function, in source order. -/
structure Param where
  name : String
  annot : Option TSType
  refs : List RefParent
deriving Repr

/-- A function node with its identifier parameters. -/
structure SrcFunc where
  kind : FunctionKind
  params : List Param
deriving Repr

/-- The parts of one parsed file the converter acts on: its function nodes and
its VariableDeclaration statements (each with the binding-lookup result for
its first declarator's name). -/
structure SrcFile where
  funcs : List SrcFunc
  decls : List (VarDecl × Option Bool)
deriving Repr

/-- Per-parameter body of the `Function` visitor: the bundle detection runs
unconditionally, then `inferParameterType` fills the type-slot only when the
parameter lacks an annotation. -/
def annotateParam (kind : FunctionKind) (flags : BundleFlags) (p : Param) :
    Except JsErr (BundleFlags × Param) :=
  let flags2 := detectBundles p.name flags
  match p.annot with
  | some _ => Except.ok (flags2, p)
  | none =>
    match inferParameterType kind p.name p.refs with
    | Except.error e => Except.error e
    | Except.ok t => Except.ok (flags2, { p with annot := some t })

def processParams (kind : FunctionKind) (flags : BundleFlags) :
    List Param → Except JsErr (BundleFlags × List Param)
  | [] => Except.ok (flags, [])
  | p :: ps =>
    match annotateParam kind flags p with
    | Except.error e => Except.error e
    | Except.ok (flags1, p1) =>
      match processParams kind flags1 ps with
      | Except.error e => Except.error e
      | Except.ok (flags2, rest) => Except.ok (flags2, p1 :: rest)

def processFuncs (flags : BundleFlags) :
    List SrcFunc → Except JsErr (BundleFlags × List SrcFunc)
  | [] => Except.ok (flags, [])
  | f :: fs =>
    match processParams f.kind flags f.params with
    | Except.error e => Except.error e
    | Except.ok (flags1, ps) =>
      match processFuncs flags1 fs with
      | Except.error e => Except.error e
      | Except.ok (flags2, rest) => Except.ok (flags2, SrcFunc.mk f.kind ps :: rest)

/-- Result of one conversion: the final import list (bundle imports in front of
require-derived imports) and the rewritten tree parts. -/
structure ConvertResult where
  imports : List ImportDecl
  funcs : List SrcFunc
  decls : List VarDecl
deriving Repr

/-- Embedding of the decision core of `convertFile`: one traversal annotating
parameters and accumulating bundle flags, the require/var rewriting of the
declaration statements, then the bundle-import `unshift` assembly. A JS
exception anywhere aborts the whole conversion (the source's `catch` logs and
calls `process.exit(1)` without writing output). -/
def convertFile (file : SrcFile) : Except JsErr ConvertResult :=
  match processFuncs noFlags file.funcs with
  | Except.error e => Except.error e
  | Except.ok (flags, funcs) =>
    match processDecls file.decls (RewriteState.mk [] []) with
    | Except.error e => Except.error e
    | Except.ok (st, decls) =>
      Except.ok (ConvertResult.mk (assembleImports flags st.importNodes) funcs decls)

/- ## Inputs used by the claims -/

/-- A `const X = require("m")` statement with a simple identifier binding. -/
def requireDefaultDecl (X m : String) : VarDecl :=
  VarDecl.mk "const"
    [Declarator.mk (Pat.identifier X) (some (InitExpr.call (some "require") [Arg.stringLit m]))]

/-- ObjectPattern members for a destructuring of plain key-value properties. -/
def plainProps (ps : List (String × String)) : List ObjProp :=
  ps.map fun kv => ObjProp.prop (some kv.1) (some kv.2)

/-- A `const {k1: v1, ...} = require("m")` statement with plain properties. -/
def requireNamedDecl (ps : List (String × String)) (m : String) : VarDecl :=
  VarDecl.mk "const"
    [Declarator.mk (Pat.objectPattern (plainProps ps))
      (some (InitExpr.call (some "require") [Arg.stringLit m]))]

/- ## Helper lemmas -/

theorem scanRefs_append_none (name : String) (pre rest : List RefParent)
    (h : ∀ r ∈ pre, classifyRef name r = none) :
    scanRefs name (pre ++ rest) = scanRefs name rest := by
  induction pre with
  | nil => rfl
  | cons a as ih =>
    have ha : classifyRef name a = none := h a (by simp)
    have has : ∀ r ∈ as, classifyRef name r = none := fun r hr => h r (by simp [hr])
    simp only [List.cons_append, scanRefs, ha]
    exact ih has

theorem mkRequireImport_congr (a b : VarDecl) (h : a.declarations = b.declarations) :
    mkRequireImport a = mkRequireImport b := by
  unfold mkRequireImport
  rw [h]

theorem rewriteVarKind_declarations (node : VarDecl) (b : Option Bool) :
    (rewriteVarKind node b).declarations = node.declarations := by
  unfold rewriteVarKind
  repeat' split
  all_goals rfl

theorem handleRequire_false (node : VarDecl) (st st1 : RewriteState)
    (h : handleRequireToImport node st = Except.ok (st1, false)) :
    mkRequireImport node = Except.ok none ∧ st1 = st := by
  unfold handleRequireToImport at h
  cases hmk : mkRequireImport node with
  | error e => rw [hmk] at h; cases h
  | ok o =>
    cases o with
    | none =>
      rw [hmk] at h
      dsimp only at h
      simp only [Except.ok.injEq, Prod.mk.injEq] at h
      exact ⟨rfl, h.1.symm⟩
    | some imp =>
      rw [hmk] at h
      dsimp only at h
      unfold finishImport at h
      split at h <;> simp at h

theorem visit_state (node : VarDecl) (b : Option Bool) (st st' : RewriteState)
    (kd : Option VarDecl) (h : visitVariableDeclaration node b st = Except.ok (st', kd)) :
    st' = st ∨ ∃ imp : ImportDecl, imp.source ∉ st.imports ∧
      st' = RewriteState.mk (st.imports ++ [imp.source]) (st.importNodes ++ [imp]) := by
  unfold visitVariableDeclaration at h
  cases hh : handleRequireToImport node st with
  | error e => rw [hh] at h; cases h
  | ok pr =>
    obtain ⟨st2, removed⟩ := pr
    rw [hh] at h
    dsimp only at h
    have hst : st' = st2 := by
      cases removed <;> simp only [Bool.false_eq_true, if_false, if_true,
        Except.ok.injEq, Prod.mk.injEq] at h <;> exact h.1.symm
    subst hst
    unfold handleRequireToImport at hh
    cases hmk : mkRequireImport node with
    | error e => rw [hmk] at hh; cases hh
    | ok o =>
      cases o with
      | none =>
        rw [hmk] at hh
        dsimp only at hh
        simp only [Except.ok.injEq, Prod.mk.injEq] at hh
        exact Or.inl hh.1.symm
      | some imp =>
        rw [hmk] at hh
        dsimp only at hh
        unfold finishImport at hh
        by_cases hm : imp.source ∈ st.imports
        · rw [if_pos hm] at hh
          simp only [Except.ok.injEq, Prod.mk.injEq] at hh
          exact Or.inl hh.1.symm
        · rw [if_neg hm] at hh
          simp only [Except.ok.injEq, Prod.mk.injEq] at hh
          exact Or.inr ⟨imp, hm, hh.1.symm⟩

theorem visit_kept_mk_none (node : VarDecl) (b : Option Bool) (st st2 : RewriteState)
    (k : VarDecl) (h : visitVariableDeclaration node b st = Except.ok (st2, some k)) :
    mkRequireImport k = Except.ok none := by
  unfold visitVariableDeclaration at h
  cases hh : handleRequireToImport node st with
  | error e => rw [hh] at h; cases h
  | ok pr =>
    obtain ⟨st1, removed⟩ := pr
    rw [hh] at h
    dsimp only at h
    cases removed with
    | true => simp at h
    | false =>
      simp only [Bool.false_eq_true, if_false, Except.ok.injEq, Prod.mk.injEq,
        Option.some.injEq] at h
      have hmk := (handleRequire_false node st st1 hh).1
      rw [← h.2, mkRequireImport_congr _ _ (rewriteVarKind_declarations node b)]
      exact hmk

theorem processDecls_kept (ds : List (VarDecl × Option Bool)) (st stF : RewriteState)
    (kept : List VarDecl) (h : processDecls ds st = Except.ok (stF, kept)) :
    ∀ k ∈ kept, mkRequireImport k = Except.ok none := by
  induction ds generalizing st stF kept with
  | nil =>
    unfold processDecls at h
    simp only [Except.ok.injEq, Prod.mk.injEq] at h
    rw [← h.2]
    intro k hk
    cases hk
  | cons db rest ih =>
    obtain ⟨d, b⟩ := db
    unfold processDecls at h
    cases hv : visitVariableDeclaration d b st with
    | error e => rw [hv] at h; cases h
    | ok pr =>
      obtain ⟨st1, kd⟩ := pr
      rw [hv] at h
      dsimp only at h
      cases hp : processDecls rest st1 with
      | error e => rw [hp] at h; cases h
      | ok pr2 =>
        obtain ⟨stG, ks⟩ := pr2
        rw [hp] at h
        dsimp only at h
        simp only [Except.ok.injEq, Prod.mk.injEq] at h
        rw [← h.2]
        intro k hk
        rw [List.mem_append] at hk
        cases hk with
        | inl hk0 =>
          cases kd with
          | none => cases hk0
          | some k0 =>
            have hk0e : k = k0 := by simpa using hk0
            rw [hk0e]
            exact visit_kept_mk_none d b st st1 k0 hv
        | inr hks => exact ih st1 stG ks hp k hks

theorem processDecls_filter_stable (m : String) (ds : List (VarDecl × Option Bool))
    (st stF : RewriteState) (kept : List VarDecl)
    (hmem : m ∈ st.imports) (h : processDecls ds st = Except.ok (stF, kept)) :
    stF.importNodes.filter (fun i => i.source == m) =
      st.importNodes.filter (fun i => i.source == m) := by
  induction ds generalizing st stF kept with
  | nil =>
    unfold processDecls at h
    simp only [Except.ok.injEq, Prod.mk.injEq] at h
    rw [← h.1]
  | cons db rest ih =>
    obtain ⟨d, b⟩ := db
    unfold processDecls at h
    cases hv : visitVariableDeclaration d b st with
    | error e => rw [hv] at h; cases h
    | ok pr =>
      obtain ⟨st1, kd⟩ := pr
      rw [hv] at h
      dsimp only at h
      cases hp : processDecls rest st1 with
      | error e => rw [hp] at h; cases h
      | ok pr2 =>
        obtain ⟨stG, ks⟩ := pr2
        rw [hp] at h
        dsimp only at h
        simp only [Except.ok.injEq, Prod.mk.injEq] at h
        rcases visit_state d b st st1 kd hv with hsame | ⟨imp, hnot, heq⟩
        · have hmem1 : m ∈ st1.imports := by rw [hsame]; exact hmem
          have := ih st1 stG ks hmem1 hp
          rw [← h.1, this, hsame]
        · have hmem1 : m ∈ st1.imports := by
            rw [heq]
            exact List.mem_append_left _ hmem
          have hstep := ih st1 stG ks hmem1 hp
          have hne : (imp.source == m) = false := by
            apply beq_eq_false_iff_ne.mpr
            intro hsrc
            exact hnot (hsrc ▸ hmem)
          rw [← h.1, hstep, heq]
          simp [List.filter_append, hne]

theorem propsToSpecifiers_plain (ps : List (String × String)) :
    propsToSpecifiers (plainProps ps) =
      Except.ok (ps.map fun kv => ImportSpec.namedSpec (some kv.1) (some kv.2)) := by
  induction ps with
  | nil => rfl
  | cons a as ih =>
    show propsToSpecifiers (ObjProp.prop (some a.1) (some a.2) :: plainProps as) = _
    unfold propsToSpecifiers
    rw [ih]
    rfl

theorem visit_removable (node : VarDecl) (imp : ImportDecl) (b : Option Bool)
    (st : RewriteState) (hmk : mkRequireImport node = Except.ok (some imp))
    (hmem : imp.source ∉ st.imports) :
    visitVariableDeclaration node b st =
      Except.ok (RewriteState.mk (st.imports ++ [imp.source]) (st.importNodes ++ [imp]),
        none) := by
  unfold visitVariableDeclaration handleRequireToImport finishImport
  rw [hmk]
  dsimp only
  rw [if_neg hmem]
  rfl

/- ## Claim C1 -/

/-- Input exercising the catalog fallback at a parameter named `response` with
no usage evidence: `function handle(response) {}`. -/
def responseFile : SrcFile :=
  SrcFile.mk [SrcFunc.mk FunctionKind.functionDeclaration [Param.mk "response" none []]] []

/-- Claim C1 (code bug): contrary to the claim that the classifier-then-catalog
fallback chain always terminates in a concrete verdict and never signals an
error, a parameter named `response` with no matching usage evidence reaches
the catalog arm that reads the out-of-scope `needsAxiosTypes` variable: the
embedded chain raises a ReferenceError and the whole conversion aborts. -/
theorem c1_response_reference_error :
    convertFile responseFile = Except.error (JsErr.referenceError "needsAxiosTypes") ∧
    inferParameterType FunctionKind.functionDeclaration "response" [] =
      Except.error (JsErr.referenceError "needsAxiosTypes") :=
  ⟨rfl, rfl⟩

/- ## Claim C2 -/

/-- Claim C2 counterexample: a parameter named `err` of a FunctionExpression
(one of the kinds of enclosing function) is annotated `any`, not
`Error | null`, because the special case tests only for arrow functions and
function declarations. -/
theorem c2_counterexample :
    inferParameterType FunctionKind.functionExpression "err" [] = Except.ok TSType.anyKw ∧
      TSType.anyKw ≠ errorOrNull :=
  ⟨rfl, fun h => TSType.noConfusion h⟩

/-- Claim C2 (amended): for parameters named exactly `err` or `error` whose
enclosing function is an arrow function or a function declaration, the emitted
annotation is `Error | null` regardless of any usage evidence. -/
theorem c2_amended (kind : FunctionKind) (name : String) (refs : List RefParent)
    (hk : kind = FunctionKind.arrowFunctionExpression ∨ kind = FunctionKind.functionDeclaration)
    (hn : name = "err" ∨ name = "error") :
    inferParameterType kind name refs = Except.ok errorOrNull := by
  unfold inferParameterType
  rw [if_pos ⟨hk, hn⟩]

/-- Witness for `c2_amended` at an arrow function and the name `err`. -/
theorem c2_amended_witness :
    (FunctionKind.arrowFunctionExpression = FunctionKind.arrowFunctionExpression ∨
      FunctionKind.arrowFunctionExpression = FunctionKind.functionDeclaration) ∧
    (("err" : String) = "err" ∨ ("err" : String) = "error") ∧
    inferParameterType FunctionKind.arrowFunctionExpression "err"
      [RefParent.binary "+" true] = Except.ok errorOrNull :=
  ⟨Or.inl rfl, Or.inl rfl,
    c2_amended FunctionKind.arrowFunctionExpression "err" [RefParent.binary "+" true]
      (Or.inl rfl) (Or.inl rfl)⟩

/- ## Claim C3 -/

def allBundleFlags : BundleFlags :=
  BundleFlags.mk true true true true true true true true

/-- Claim C3 counterexample: with every bundle flag raised and no
require-derived imports, the emitted list starts with the node-fetch bundle
node, not the express one — the express node is emitted last among bundle
nodes, refuting the claimed order. -/
theorem c3_counterexample :
    assembleImports allBundleFlags [] =
      [fetchImport, axiosImport, jwtImport, socketIOImport, sqlImport, mongooseImport,
        mongoImport, expressImport] ∧
    (assembleImports allBundleFlags []).head? ≠ some expressImport :=
  ⟨rfl, by decide⟩

/-- Order of emitted bundle imports per the amended claim: fetch, axios, jwt,
socket.io, sql, mongoose, mongodb, express — the flagged bundles listed in
that fixed order. -/
def bundleEmissionOrder (flags : BundleFlags) : List ImportDecl :=
  (if flags.needsFetchTypes then [fetchImport] else []) ++
  (if flags.needsAxiosTypes then [axiosImport] else []) ++
  (if flags.needsJWTTypes then [jwtImport] else []) ++
  (if flags.needsSocketIOTypes then [socketIOImport] else []) ++
  (if flags.needsSQLTypes then [sqlImport] else []) ++
  (if flags.needsMongooseTypes then [mongooseImport] else []) ++
  (if flags.needsMongoDBTypes then [mongoImport] else []) ++
  (if flags.needsExpressTypes then [expressImport] else [])

/-- Claim C3 (amended): bundle imports are emitted in the fixed order fetch,
axios, jwt, socketio, sql, mongoose, mongo, express (express last among
bundle imports, the reverse of the claimed order), and all bundle imports
precede the require-derived imports. -/
theorem c3_amended (flags : BundleFlags) (ns : List ImportDecl) :
    assembleImports flags ns = bundleEmissionOrder flags ++ ns := by
  obtain ⟨e, mg, ms, sq, so, jw, ax, fe⟩ := flags
  cases e <;> cases mg <;> cases ms <;> cases sq <;> cases so <;> cases jw <;>
    cases ax <;> cases fe <;> rfl

/- ## Claim C4 -/

/-- Claim C4: processing a simple-identifier require declaration
`const X = require("m")` whose module is not yet imported yields exactly one
default-style import of X from m in the final import nodes — no matter what
later declarations (including repeated requires of the same module) follow —
and the original declaration statement is absent from the surviving
statements. -/
theorem c4_default_require_import (X m : String) (b : Option Bool)
    (ds : List (VarDecl × Option Bool)) (st stF : RewriteState) (kept : List VarDecl)
    (hmem : m ∉ st.imports)
    (hpre : st.importNodes.filter (fun i => i.source == m) = [])
    (h : processDecls ((requireDefaultDecl X m, b) :: ds) st = Except.ok (stF, kept)) :
    stF.importNodes.filter (fun i => i.source == m) =
      [ImportDecl.mk [ImportSpec.defaultSpec X] m] ∧
    requireDefaultDecl X m ∉ kept := by
  have hmk : mkRequireImport (requireDefaultDecl X m) =
      Except.ok (some (ImportDecl.mk [ImportSpec.defaultSpec X] m)) := rfl
  have hv := visit_removable (requireDefaultDecl X m)
    (ImportDecl.mk [ImportSpec.defaultSpec X] m) b st hmk hmem
  unfold processDecls at h
  rw [hv] at h
  dsimp only at h
  cases hp : processDecls ds (RewriteState.mk (st.imports ++ [m])
      (st.importNodes ++ [ImportDecl.mk [ImportSpec.defaultSpec X] m])) with
  | error e => rw [hp] at h; cases h
  | ok pr =>
    obtain ⟨stG, ks⟩ := pr
    rw [hp] at h
    dsimp only at h
    simp only [List.nil_append, Except.ok.injEq, Prod.mk.injEq] at h
    obtain ⟨h1, h2⟩ := h
    constructor
    · have hstable := processDecls_filter_stable m ds _ stG ks (by simp) hp
      rw [← h1, hstable]
      simp [List.filter_append, hpre]
    · intro hin
      have hks : requireDefaultDecl X m ∈ ks := by rw [h2]; exact hin
      have := processDecls_kept ds _ stG ks hp (requireDefaultDecl X m) hks
      rw [hmk] at this
      simp at this

/-- Witness for `c4_default_require_import`: `const myfs = require("fs")`
followed by a second require of `"fs"`; the result keeps exactly one
default-style binding of `myfs` from `"fs"` and no original statement. -/
theorem c4_default_require_import_witness :
    ("fs" ∉ (RewriteState.mk [] []).imports) ∧
    ((RewriteState.mk [] []).importNodes.filter (fun i => i.source == "fs") = []) ∧
    (processDecls [(requireDefaultDecl "myfs" "fs", none), (requireDefaultDecl "other" "fs", none)]
        (RewriteState.mk [] []) =
      Except.ok (RewriteState.mk ["fs"] [ImportDecl.mk [ImportSpec.defaultSpec "myfs"] "fs"],
        [])) ∧
    ((RewriteState.mk ["fs"]
        [ImportDecl.mk [ImportSpec.defaultSpec "myfs"] "fs"]).importNodes.filter
          (fun i => i.source == "fs") =
        [ImportDecl.mk [ImportSpec.defaultSpec "myfs"] "fs"] ∧
      requireDefaultDecl "myfs" "fs" ∉
        ([] : List VarDecl)) :=
  ⟨by simp, rfl, rfl,
    c4_default_require_import "myfs" "fs" none [(requireDefaultDecl "other" "fs", none)]
      (RewriteState.mk [] []) _ _ (by simp) rfl rfl⟩

/- ## Claim C5 -/

/-- Claim C5: processing a destructured require declaration
`const {k1: v1, k2: v2, ...} = require("m")` with only plain key-value
properties, for a module not yet imported, yields exactly one import of m with
one named specifier per property (importing the key, locally bound to the
value name), regardless of later declarations — in particular a second
declaration requiring the same module adds no duplicate — and the original
statement is absent from the surviving statements. -/
theorem c5_named_require_import (ps : List (String × String)) (m : String) (b : Option Bool)
    (ds : List (VarDecl × Option Bool)) (st stF : RewriteState) (kept : List VarDecl)
    (hmem : m ∉ st.imports)
    (hpre : st.importNodes.filter (fun i => i.source == m) = [])
    (h : processDecls ((requireNamedDecl ps m, b) :: ds) st = Except.ok (stF, kept)) :
    stF.importNodes.filter (fun i => i.source == m) =
      [ImportDecl.mk (ps.map fun kv => ImportSpec.namedSpec (some kv.1) (some kv.2)) m] ∧
    requireNamedDecl ps m ∉ kept := by
  have hmk : mkRequireImport (requireNamedDecl ps m) =
      Except.ok (some (ImportDecl.mk
        (ps.map fun kv => ImportSpec.namedSpec (some kv.1) (some kv.2)) m)) := by
    unfold mkRequireImport requireNamedDecl
    simp [propsToSpecifiers_plain]
  have hv := visit_removable (requireNamedDecl ps m)
    (ImportDecl.mk (ps.map fun kv => ImportSpec.namedSpec (some kv.1) (some kv.2)) m)
    b st hmk hmem
  unfold processDecls at h
  rw [hv] at h
  dsimp only at h
  cases hp : processDecls ds (RewriteState.mk (st.imports ++ [m])
      (st.importNodes ++
        [ImportDecl.mk (ps.map fun kv => ImportSpec.namedSpec (some kv.1) (some kv.2)) m])) with
  | error e => rw [hp] at h; cases h
  | ok pr =>
    obtain ⟨stG, ks⟩ := pr
    rw [hp] at h
    dsimp only at h
    simp only [List.nil_append, Except.ok.injEq, Prod.mk.injEq] at h
    obtain ⟨h1, h2⟩ := h
    constructor
    · have hstable := processDecls_filter_stable m ds _ stG ks (by simp) hp
      rw [← h1, hstable]
      simp [List.filter_append, hpre]
    · intro hin
      have hks : requireNamedDecl ps m ∈ ks := by rw [h2]; exact hin
      have := processDecls_kept ds _ stG ks hp (requireNamedDecl ps m) hks
      rw [hmk] at this
      simp at this

/-- Witness for `c5_named_require_import`: `const {a, b: c} = require("mod")`
followed by a second require of `"mod"`; exactly one import with named
specifiers `a` and `b as c` results, with no duplicate. -/
theorem c5_named_require_import_witness :
    ("mod" ∉ (RewriteState.mk [] []).imports) ∧
    ((RewriteState.mk [] []).importNodes.filter (fun i => i.source == "mod") = []) ∧
    (processDecls
        [(requireNamedDecl [("a", "a"), ("b", "c")] "mod", none),
          (requireNamedDecl [("d", "d")] "mod", none)]
        (RewriteState.mk [] []) =
      Except.ok (RewriteState.mk ["mod"]
        [ImportDecl.mk [ImportSpec.namedSpec (some "a") (some "a"),
          ImportSpec.namedSpec (some "b") (some "c")] "mod"], [])) ∧
    ((RewriteState.mk ["mod"]
        [ImportDecl.mk [ImportSpec.namedSpec (some "a") (some "a"),
          ImportSpec.namedSpec (some "b") (some "c")] "mod"]).importNodes.filter
          (fun i => i.source == "mod") =
        [ImportDecl.mk
          ([("a", "a"), ("b", "c")].map fun kv =>
            ImportSpec.namedSpec (some kv.1) (some kv.2)) "mod"] ∧
      requireNamedDecl [("a", "a"), ("b", "c")] "mod" ∉ ([] : List VarDecl)) :=
  ⟨by simp, rfl, rfl,
    c5_named_require_import [("a", "a"), ("b", "c")] "mod" none
      [(requireNamedDecl [("d", "d")] "mod", none)]
      (RewriteState.mk [] []) _ _ (by simp) rfl rfl⟩

/- ## Claim C6 -/

/-- The declaration `const {a, ...rest} = require("m")`: an ObjectPattern
whose members are one plain property and one RestElement. -/
def restPatternRequire : VarDecl :=
  VarDecl.mk "const"
    [Declarator.mk
      (Pat.objectPattern [ObjProp.prop (some "a") (some "a"), ObjProp.restElement "rest"])
      (some (InitExpr.call (some "require") [Arg.stringLit "m"]))]

/-- Claim C6 (code bug): contrary to the claim that an unexpected destructuring
shape such as a rest element is treated as "rule does not apply" with the node
left unmodified, the rewriter maps over the pattern's members reading
`prop.key.name`, and a RestElement has no key: the embedded rewriter raises
the TypeError, so the conversion aborts instead of no-op-ing. -/
theorem c6_rest_element_crashes :
    handleRequireToImport restPatternRequire (RewriteState.mk [] []) =
      Except.error (JsErr.typeError "Cannot read properties of undefined (reading name)") ∧
    convertFile (SrcFile.mk [] [(restPatternRequire, none)]) =
      Except.error (JsErr.typeError "Cannot read properties of undefined (reading name)") :=
  ⟨rfl, rfl⟩

/- ## Claim C7 -/

/-- The statement `const X = require("m"), Y = 2;` (two declarators, first one
a require). -/
def multiDeclRequire : VarDecl :=
  VarDecl.mk "const"
    [Declarator.mk (Pat.identifier "X")
      (some (InitExpr.call (some "require") [Arg.stringLit "m"])),
     Declarator.mk (Pat.identifier "Y") (some InitExpr.otherInit)]

/-- The statement `var x = 1, y = 2;` (two declarators), with the binding of
`x` constant. -/
def multiDeclVar : VarDecl :=
  VarDecl.mk "var"
    [Declarator.mk (Pat.identifier "x") (some InitExpr.otherInit),
     Declarator.mk (Pat.identifier "y") (some InitExpr.otherInit)]

/-- Claim C7 (code bug): contrary to the claim that multi-declarator
statements are left entirely untouched, the visitor examines only
`declarations[0]`: a two-declarator statement whose first declarator is a
require is removed wholesale (dropping the second declarator) with an import
synthesized, and a two-declarator `var` statement has its keyword rewritten
based solely on the first declarator's binding. -/
theorem c7_multi_declarator_rewritten :
    visitVariableDeclaration multiDeclRequire none (RewriteState.mk [] []) =
      Except.ok (RewriteState.mk ["m"] [ImportDecl.mk [ImportSpec.defaultSpec "X"] "m"],
        none) ∧
    visitVariableDeclaration multiDeclVar (some true) (RewriteState.mk [] []) =
      Except.ok (RewriteState.mk [] [],
        some (VarDecl.mk "const" multiDeclVar.declarations)) :=
  ⟨rfl, rfl⟩

/- ## Claim C8 -/

/-- Claim C8: for a single-declarator `var` declaration with a simple
identifier target whose binding exists, the keyword becomes `const` when the
binding is constant (never reassigned) and `let` when it is not, with the
declarator list unchanged. -/
theorem c8_var_keyword_rewrite (name : String) (ini : Option InitExpr) (isConst : Bool) :
    rewriteVarKind (VarDecl.mk "var" [Declarator.mk (Pat.identifier name) ini])
        (some isConst) =
      VarDecl.mk (if isConst then "const" else "let")
        [Declarator.mk (Pat.identifier name) ini] := by
  cases isConst <;> rfl

/- ## Claim C9 -/

/-- Claim C9 counterexample: a parameter whose single reference is an operand
of a `+` binary expression with a numeric-literal other operand is annotated
string, not number — the string-concatenation rule fires first on that same
reference. -/
theorem c9_counterexample :
    inferParameterType FunctionKind.functionExpression "x" [RefParent.binary "+" true] =
      Except.ok TSType.stringKw ∧ TSType.stringKw ≠ TSType.numberKw :=
  ⟨rfl, fun h => TSType.noConfusion h⟩

/-- Claim C9 (amended): when the name-based special cases do not apply and no
earlier-scanned reference fires any rule, a reference that is an operand of an
arithmetic binary expression with operator `-`, `*` or `/` and a
numeric-literal other operand yields Primitive(number), while a reference that
is an operand of a `+` binary expression yields Primitive(string) — for `+`
the string rule wins even when the other operand is a numeric literal. -/
theorem c9_amended (kind : FunctionKind) (name : String) (pre post : List RefParent)
    (op : String) (b : Bool)
    (h1 : name ≠ "err") (h2 : name ≠ "error") (h3 : name ≠ "next")
    (hpre : ∀ r ∈ pre, classifyRef name r = none)
    (hop : op = "-" ∨ op = "*" ∨ op = "/") :
    inferParameterType kind name (pre ++ RefParent.binary op true :: post) =
        Except.ok TSType.numberKw ∧
      inferParameterType kind name (pre ++ RefParent.binary "+" b :: post) =
        Except.ok TSType.stringKw := by
  have hng1 : ¬ ((kind = FunctionKind.arrowFunctionExpression ∨
      kind = FunctionKind.functionDeclaration) ∧ (name = "err" ∨ name = "error")) :=
    fun hc => hc.2.elim h1 h2
  have hng2 : ¬ ((kind = FunctionKind.arrowFunctionExpression ∨
      kind = FunctionKind.functionDeclaration) ∧ name = "next") :=
    fun hc => h3 hc.2
  constructor
  · unfold inferParameterType
    rw [if_neg hng1, if_neg hng2, scanRefs_append_none name pre _ hpre]
    have hc : classifyRef name (RefParent.binary op true) = some TSType.numberKw := by
      rcases hop with rfl | rfl | rfl <;> rfl
    simp only [scanRefs, hc]
  · unfold inferParameterType
    rw [if_neg hng1, if_neg hng2, scanRefs_append_none name pre _ hpre]
    have hc : classifyRef name (RefParent.binary "+" b) = some TSType.stringKw := rfl
    simp only [scanRefs, hc]

/-- Witness for `c9_amended`: parameter `x` of a function expression with a
single `x - 1`-shaped reference (and the `+` conjunct at `x + …`). -/
theorem c9_amended_witness :
    (("x" : String) ≠ "err") ∧ (("x" : String) ≠ "error") ∧ (("x" : String) ≠ "next") ∧
    (∀ r ∈ ([] : List RefParent), classifyRef "x" r = none) ∧
    (("-" : String) = "-" ∨ ("-" : String) = "*" ∨ ("-" : String) = "/") ∧
    (inferParameterType FunctionKind.functionExpression "x"
        ([] ++ RefParent.binary "-" true :: []) = Except.ok TSType.numberKw ∧
      inferParameterType FunctionKind.functionExpression "x"
        ([] ++ RefParent.binary "+" false :: []) = Except.ok TSType.stringKw) :=
  ⟨by decide, by decide, by decide, by simp, Or.inl rfl,
    c9_amended FunctionKind.functionExpression "x" [] [] "-" false (by decide) (by decide)
      (by decide) (by simp) (Or.inl rfl)⟩

/- ## Claim C10 -/

/-- A file whose only function has one identifier parameter named `io` with no
reference-site evidence and no other bundle-triggering names. -/
def ioFile : SrcFile :=
  SrcFile.mk [SrcFunc.mk FunctionKind.functionDeclaration [Param.mk "io" none []]] []

/-- Claim C10: for the `io` file, the conversion prepends exactly the
socket.io bundle import with named bindings Socket and Server, while the
parameter `io` itself is annotated `any` (the catalog has no entry matching
`io`), so no emitted annotation references those types. -/
theorem c10_io_socket_bundle :
    convertFile ioFile = Except.ok (ConvertResult.mk [socketIOImport]
      [SrcFunc.mk FunctionKind.functionDeclaration [Param.mk "io" (some TSType.anyKw) []]]
      []) ∧
    socketIOImport = ImportDecl.mk
      [ImportSpec.namedSpec (some "Socket") (some "Socket"),
        ImportSpec.namedSpec (some "Server") (some "Server")] "socket.io" :=
  ⟨rfl, rfl⟩

end Typify
